import Mathlib

/-!
Verification of the Marketplace Python client (`marketplace/client.py`) and the
reviewer-onboarding script (`example/seed_onboarding_data.py`).

The Python code is shallowly embedded: Python values occurring in request
payloads and JSON bodies become the inductive type `PyVal`; the `Connection`
object (whose source is not part of the repository; the spec describes it as
`fetch(method, url, payload) -> Response`) is modelled by a `World` holding the
server's behaviour, and every `conn.fetch` call is logged in a trace so that
call-ordering claims can be stated.  Python exceptions become `Except PyErr`.
-/

namespace Marketplace

/-- A Python value, as it occurs in request payloads and parsed JSON bodies. -/
inductive PyVal where
  | none : PyVal
  | bool : Bool → PyVal
  | int : Int → PyVal
  | str : String → PyVal
  | list : List PyVal → PyVal
  | dict : List (String × PyVal) → PyVal

/-- Python truthiness (`bool(v)`): `None`/`False`/`0`/`''`/`[]`/`{}` are falsy. -/
def PyVal.truthy : PyVal → Bool
  | .none => false
  | .bool b => b
  | .int n => n != 0
  | .str s => s != ""
  | .list xs => !xs.isEmpty
  | .dict kvs => !kvs.isEmpty

/-- Dictionary item lookup, `v[k]`; `Option.none` stands for a `KeyError`
    (or for indexing a non-dict value). -/
def PyVal.item : PyVal → String → Option PyVal
  | .dict kvs, k => kvs.lookup k
  | _, _ => Option.none

/-- Python exceptions raised by the client or the onboarding script.  The
    human-readable messages built by the source (`'Validation failure %s: %s'`
    and so on) are not modelled, only which exception is raised. -/
inductive PyErr where
  | runtimeError : PyErr
  | assertionError : PyErr
  | exception : Nat → PyErr
  | keyError : String → PyErr
  | typeError : PyErr
  | nonTermination : PyErr
deriving DecidableEq

mutual

/-- Boolean equality on `PyVal` (the derive handler does not support this
    nested inductive, so it is written out). -/
def PyVal.beq : PyVal → PyVal → Bool
  | .none, .none => true
  | .bool a, .bool b => a == b
  | .int a, .int b => a == b
  | .str a, .str b => a == b
  | .list xs, .list ys => PyVal.beqList xs ys
  | .dict xs, .dict ys => PyVal.beqKVs xs ys
  | _, _ => false

/-- Elementwise `PyVal.beq` on lists. -/
def PyVal.beqList : List PyVal → List PyVal → Bool
  | [], [] => true
  | x :: xs, y :: ys => PyVal.beq x y && PyVal.beqList xs ys
  | _, _ => false

/-- Elementwise `PyVal.beq` on key/value lists. -/
def PyVal.beqKVs : List (String × PyVal) → List (String × PyVal) → Bool
  | [], [] => true
  | (k, v) :: xs, (l, w) :: ys => k == l && PyVal.beq v w && PyVal.beqKVs xs ys
  | _, _ => false

end

mutual

/-- `PyVal.beq` decides equality. -/
theorem PyVal.beq_iff : ∀ a b : PyVal, PyVal.beq a b = true ↔ a = b
  | .none, .none => by simp [PyVal.beq]
  | .bool _, .bool _ => by simp [PyVal.beq]
  | .int _, .int _ => by simp [PyVal.beq]
  | .str _, .str _ => by simp [PyVal.beq]
  | .list xs, .list ys => by simp [PyVal.beq, PyVal.beqList_iff xs ys]
  | .dict xs, .dict ys => by simp [PyVal.beq, PyVal.beqKVs_iff xs ys]
  | .none, .bool _ | .none, .int _ | .none, .str _ | .none, .list _ | .none, .dict _
  | .bool _, .none | .bool _, .int _ | .bool _, .str _ | .bool _, .list _ | .bool _, .dict _
  | .int _, .none | .int _, .bool _ | .int _, .str _ | .int _, .list _ | .int _, .dict _
  | .str _, .none | .str _, .bool _ | .str _, .int _ | .str _, .list _ | .str _, .dict _
  | .list _, .none | .list _, .bool _ | .list _, .int _ | .list _, .str _ | .list _, .dict _
  | .dict _, .none | .dict _, .bool _ | .dict _, .int _ | .dict _, .str _
  | .dict _, .list _ => by simp [PyVal.beq]

/-- `PyVal.beqList` decides equality. -/
theorem PyVal.beqList_iff : ∀ xs ys : List PyVal, PyVal.beqList xs ys = true ↔ xs = ys
  | [], [] => by simp [PyVal.beqList]
  | x :: xs, y :: ys => by
      simp [PyVal.beqList, PyVal.beq_iff x y, PyVal.beqList_iff xs ys]
  | [], _ :: _ => by simp [PyVal.beqList]
  | _ :: _, [] => by simp [PyVal.beqList]

/-- `PyVal.beqKVs` decides equality. -/
theorem PyVal.beqKVs_iff : ∀ xs ys : List (String × PyVal), PyVal.beqKVs xs ys = true ↔ xs = ys
  | [], [] => by simp [PyVal.beqKVs]
  | (k, v) :: xs, (l, w) :: ys => by
      simp [PyVal.beqKVs, PyVal.beq_iff v w, PyVal.beqKVs_iff xs ys, and_assoc]
  | [], _ :: _ => by simp [PyVal.beqKVs]
  | _ :: _, [] => by simp [PyVal.beqKVs]

end

instance : DecidableEq PyVal := fun a b => decidable_of_iff _ (PyVal.beq_iff a b)

mutual

/-- Python `repr(v)`.  String escaping inside `repr` of a string is not
    modelled (the repository never feeds quote characters through `repr`);
    otherwise this follows Python 2's rendering. -/
def pyRepr : PyVal → String
  | .none => "None"
  | .bool true => "True"
  | .bool false => "False"
  | .int n => toString n
  | .str s => "'" ++ s ++ "'"
  | .list xs => "[" ++ String.intercalate ", " (pyReprList xs) ++ "]"
  | .dict kvs => "\x7b" ++ String.intercalate ", " (pyReprKVs kvs) ++ "\x7d"

/-- `repr` of each element of a list. -/
def pyReprList : List PyVal → List String
  | [] => []
  | x :: xs => pyRepr x :: pyReprList xs

/-- `repr` of each `key: value` pair of a dict. -/
def pyReprKVs : List (String × PyVal) → List String
  | [] => []
  | (k, v) :: xs => ("'" ++ k ++ "': " ++ pyRepr v) :: pyReprKVs xs

end

/-- Python `str(v)`: identity on strings, `repr` on everything else. -/
def pyStr : PyVal → String
  | .str s => s
  | v => pyRepr v

/-- Replace the first occurrence of `pat` in a character list by `rep`. -/
def replaceFirstAux (pat rep : List Char) : List Char → List Char
  | [] => []
  | c :: rest =>
      if pat.isPrefixOf (c :: rest) then rep ++ (c :: rest).drop pat.length
      else c :: replaceFirstAux pat rep rest

/-- Python `template % value` for the URL templates of `client.py`, each of
    which contains exactly one `%s` placeholder: the placeholder is replaced
    by `str(value)`.  (Templates without a placeholder are never formatted by
    the source, so the `TypeError` Python raises in that case is not
    modelled.) -/
def pyMod (template : String) (v : PyVal) : String :=
  String.mk (replaceFirstAux ['%', 's'] (pyStr v).data template.data)

/-- The normalized HTTP response of the spec's `Connection.fetch`
    (`status_code` plus body).  The body is modelled as the parsed JSON
    value; accordingly `json.loads` below is the identity. -/
structure HttpResponse where
  status_code : Nat
  content : PyVal
deriving DecidableEq

/-- Python's `json.loads`, applied by the source to every response body it
    inspects.  Bodies are modelled already parsed, so this is the identity. -/
def json_loads (v : PyVal) : PyVal := v

/-- One call to `Connection.fetch`: HTTP method, full URL, and the optional
    payload (`data` argument). -/
structure Request where
  method : String
  url : String
  body : Option PyVal
deriving DecidableEq

/-- The trace of `Connection.fetch` calls made so far, in order. -/
abbrev Trace := List Request

/-- The environment: the marketplace server's behaviour.  `server k r` is the
    response to the `k`-th `fetch` call of the run (counted from 0) when that
    call sends request `r`; indexing by `k` lets the mocked server change its
    answer between polls. -/
structure World where
  server : Nat → Request → HttpResponse

/-- `Modelled from the spec:` the repository imports `Connection` from
    `marketplace/connection.py`, which is not among the source files; the spec
    (§4.2) gives its contract as `fetch(method, url, payload=None) -> Response`,
    a single synchronous attempt that does not interpret status codes.  `fetch`
    therefore consults the world at the current call index and logs the
    request. -/
def fetch (w : World) (t : Trace) (method url : String) (body : Option PyVal) :
    HttpResponse × Trace :=
  let r : Request := ⟨method, url, body⟩
  (w.server t.length r, t ++ [r])

/-- The URL path-template table `URLS` of `client.py`, as a function of the
    key (every call site of `Client.url` uses one of these nine literal keys,
    so the `KeyError` of a missing key never arises). -/
def URLS : String → String
  | "validate" => "/apps/validation/"
  | "validation_result" => "/apps/validation/%s/"
  | "create" => "/apps/app/"
  | "app" => "/apps/app/%s/"
  | "create_screenshot" => "/apps/app/%s/preview/"
  | "screenshot" => "/apps/preview/%s/"
  | "categories" => "/apps/category/"
  | "content_ratings" => "/apps/app/%s/content_ratings/"
  | "enable" => "/apps/status/%s/"
  | _ => ""

/-- Python 2 `urlparse.urlunparse((scheme, netloc, path, '', '', ''))`, the
    exact stdlib logic for empty params/query/fragment: if there is a netloc
    (or the path starts with `//`), the path gets `//netloc` glued in front,
    with a `/` inserted when the path does not already start with one; a
    nonempty scheme is prepended with `:`. -/
def urlunparse (scheme netloc path : String) : String :=
  (if scheme ≠ "" then scheme ++ ":" else "") ++
  (if netloc ≠ "" ∨ path.data.take 2 = ['/', '/'] then
      "//" ++ netloc ++
        (if path ≠ "" ∧ path.data.head? ≠ some '/' then "/" else "")
    else "") ++ path

/-- The `Client` object: construction parameters used to build URLs.  The
    field `pre` embeds the Python attribute `prefix` (that identifier is not
    usable here).  The OAuth credentials and the `conn` attribute live behind
    the spec-modelled `Connection` (see `fetch`); a client constructed without
    credentials (whose `conn` is `None`) is outside the model. -/
structure Client where
  domain : String
  protocol : String
  port : Nat
  pre : String
deriving DecidableEq

/-- `Client.url`: full URL for an operation key, via `urlunparse` of the
    protocol, `'%s:%s' % (domain, port)` and `'%s/api/v1%s' % (prefix, URLS[key])`. -/
def Client.url (c : Client) (key : String) : String :=
  urlunparse c.protocol (c.domain ++ ":" ++ toString c.port)
    (c.pre ++ "/api/v1" ++ URLS key)

/-- `Client.validate_manifest`: `POST` the manifest URL to the `validate`
    endpoint. -/
def Client.validate_manifest (c : Client) (w : World) (t : Trace) (manifest_url : PyVal) :
    HttpResponse × Trace :=
  fetch w t "POST" (c.url "validate") (some (.dict [("manifest", manifest_url)]))

/-- The request issued by `Client.get_manifest_validation_result` for a given
    manifest id: a `GET` of `url('validation_result') % manifest_id`, with no
    payload. -/
def gmvrRequest (c : Client) (manifest_id : PyVal) : Request :=
  ⟨"GET", pyMod (c.url "validation_result") manifest_id, Option.none⟩

/-- `Client.get_manifest_validation_result`: `GET` the validation-result
    endpoint for the manifest id. -/
def Client.get_manifest_validation_result (c : Client) (w : World) (t : Trace)
    (manifest_id : PyVal) : HttpResponse × Trace :=
  fetch w t "GET" (pyMod (c.url "validation_result") manifest_id) Option.none

/-- `Client.is_manifest_valid`: poll once; raise `Exception(status_code)` on a
    non-200 status; otherwise return `None` if not yet processed, `True` if
    valid, and the `validation` payload if processed but invalid. -/
def Client.is_manifest_valid (c : Client) (w : World) (t : Trace) (manifest_id : PyVal) :
    Except PyErr PyVal × Trace :=
  match c.get_manifest_validation_result w t manifest_id with
  | (response, t') =>
    if response.status_code ≠ 200 then (.error (.exception response.status_code), t')
    else
      let content := json_loads response.content
      match content.item "processed" with
      | Option.none => (.error (.keyError "processed"), t')
      | some p =>
        if ¬ p.truthy then (.ok PyVal.none, t')
        else
          match content.item "valid" with
          | Option.none => (.error (.keyError "valid"), t')
          | some v =>
            if v.truthy then (.ok (PyVal.bool true), t')
            else
              match content.item "validation" with
              | Option.none => (.error (.keyError "validation"), t')
              | some val => (.ok val, t')

/-- The request issued by `Client.create`: `POST` to the `create` endpoint
    with payload `{'manifest': '%s' % manifest_id}`. -/
def createRequest (c : Client) (manifest_id : PyVal) : Request :=
  ⟨"POST", c.url "create", some (.dict [("manifest", .str (pyStr manifest_id))])⟩

/-- `Client.create`: issue the create request. -/
def Client.create (c : Client) (w : World) (t : Trace) (manifest_id : PyVal) :
    HttpResponse × Trace :=
  fetch w t "POST" (c.url "create") (some (.dict [("manifest", .str (pyStr manifest_id))]))

/-- `'k' in data` for the association-list model of a Python dict. -/
def hasKey (data : List (String × PyVal)) (k : String) : Bool :=
  (data.lookup k).isSome

/-- `'k' in data and data[k]` truthiness test (the lookup is only evaluated
    when the key is present, matching Python's short-circuiting). -/
def hasTruthy (data : List (String × PyVal)) (k : String) : Bool :=
  match data.lookup k with
  | some v => v.truthy
  | Option.none => false

/-- The precondition assertion of `Client.update`, clause for clause: note
    that the source checks `'summary' in data` but — unlike every other
    field — not the truthiness of `data['summary']`. -/
def updateAssert (data : List (String × PyVal)) : Bool :=
  hasKey data "name" && hasTruthy data "name"
    && hasKey data "summary"
    && hasKey data "categories" && hasTruthy data "categories"
    && hasKey data "support_email" && hasTruthy data "support_email"
    && hasKey data "device_types" && hasTruthy data "device_types"
    && hasKey data "premium_type" && hasTruthy data "premium_type"
    && hasKey data "privacy_policy" && hasTruthy data "privacy_policy"

/-- The request issued by `Client.update` when its assertion passes: `PUT`
    of the data to `url('app') % app_id`. -/
def updateRequest (c : Client) (app_id : PyVal) (data : List (String × PyVal)) : Request :=
  ⟨"PUT", pyMod (c.url "app") app_id, some (.dict data)⟩

/-- `Client.update`: assert the required fields, then `PUT` the data.  The
    `data` dict is modelled as an association list (Python dicts cannot hold a
    key twice). -/
def Client.update (c : Client) (w : World) (t : Trace) (app_id : PyVal)
    (data : List (String × PyVal)) : Except PyErr HttpResponse × Trace :=
  if updateAssert data then
    match fetch w t "PUT" (pyMod (c.url "app") app_id) (some (.dict data)) with
    | (response, t') => (.ok response, t')
  else (.error .assertionError, t)

/-- Standard base64 alphabet. -/
def b64chars : List Char :=
  "ABCDEFGHIJKLMNOPQRSTUVWXYZabcdefghijklmnopqrstuvwxyz0123456789+/".data

/-- Digit of the base64 alphabet (inputs are always < 64). -/
def b64digit (n : Nat) : Char := b64chars.getD n 'A'

/-- `base64.b64encode` over a byte list, with standard `=` padding. -/
def b64encode : List Nat → String
  | [] => ""
  | [a] => String.mk [b64digit (a / 4), b64digit (a % 4 * 16)] ++ "=="
  | [a, b] => String.mk [b64digit (a / 4), b64digit (a % 4 * 16 + b / 16),
      b64digit (b % 16 * 4)] ++ "="
  | a :: b :: cc :: rest =>
      String.mk [b64digit (a / 4), b64digit (a % 4 * 16 + b / 16),
        b64digit (b % 16 * 4 + cc / 64), b64digit (cc % 64)] ++ b64encode rest

/-- Index of the last occurrence of `c` in `l`, if any. -/
def lastIndexOf (l : List Char) (c : Char) : Option Nat :=
  (l.reverse.findIdx? (· = c)).map (fun i => l.length - 1 - i)

/-- The extension part of Python's `posixpath.splitext`: the suffix from the
    last `.` of the last path component, empty when that component has no
    non-leading dot (so `'.png'` alone has no extension). -/
def splitextExt (p : String) : String :=
  let cs := p.data
  match lastIndexOf cs '.' with
  | Option.none => ""
  | some di =>
    let fi := match lastIndexOf cs '/' with
      | Option.none => 0
      | some si => si + 1
    if fi ≤ di ∧ ((cs.drop fi).take (di - fi)).any (fun ch => ch ≠ '.') then
      String.mk (cs.drop di)
    else ""

/-- The extension table of Python 2's `mimetypes` (an external stdlib
    collaborator), restricted to common entries; the claims only rely on
    `.png` being mapped and on unknown extensions being absent.  The stdlib
    `suffix_map`/`encodings_map` indirection (`.tgz`, `.gz`, …) is not
    modelled. -/
def types_map : List (String × String) :=
  [(".png", "image/png"), (".jpg", "image/jpeg"), (".jpeg", "image/jpeg"),
   (".jpe", "image/jpeg"), (".gif", "image/gif"), (".bmp", "image/x-ms-bmp"),
   (".svg", "image/svg+xml"), (".tif", "image/tiff"), (".tiff", "image/tiff"),
   (".ico", "image/vnd.microsoft.icon"), (".pdf", "application/pdf"),
   (".txt", "text/plain"), (".html", "text/html"), (".htm", "text/html"),
   (".json", "application/json"), (".js", "application/javascript"),
   (".css", "text/css"), (".zip", "application/zip"), (".xml", "text/xml")]

/-- ASCII lowercase of one character (Python 2 `str.lower` on byte strings
    lowercases exactly `A`-`Z`). -/
def lowerChar : Char → Char
  | 'A' => 'a' | 'B' => 'b' | 'C' => 'c' | 'D' => 'd' | 'E' => 'e' | 'F' => 'f'
  | 'G' => 'g' | 'H' => 'h' | 'I' => 'i' | 'J' => 'j' | 'K' => 'k' | 'L' => 'l'
  | 'M' => 'm' | 'N' => 'n' | 'O' => 'o' | 'P' => 'p' | 'Q' => 'q' | 'R' => 'r'
  | 'S' => 's' | 'T' => 't' | 'U' => 'u' | 'V' => 'v' | 'W' => 'w' | 'X' => 'x'
  | 'Y' => 'y' | 'Z' => 'z' | c => c

/-- Python 2 `s.lower()` (ASCII). -/
def strLower (s : String) : String := String.mk (s.data.map lowerChar)

/-- `mimetypes.guess_type`, restricted to its MIME-type component: look the
    `splitext` extension up in the table, then its lowercasing. -/
def guess_type (filename : String) : Option String :=
  let ext := splitextExt filename
  match types_map.lookup ext with
  | some ty => some ty
  | Option.none => types_map.lookup (strLower ext)

/-- The request issued by `Client.create_screenshot`: `POST` of the position
    and the base64-encoded file (with guessed MIME type, `image/jpeg` when the
    guess fails) to `url('create_screenshot') % app_id`. -/
def screenshotRequest (c : Client) (fs : String → List Nat) (app_id : PyVal)
    (filename : String) (position : PyVal) : Request :=
  ⟨"POST", pyMod (c.url "create_screenshot") app_id,
    some (.dict [("position", position),
      ("file", .dict [("type", .str ((guess_type filename).getD "image/jpeg")),
                      ("data", .str (b64encode (fs filename)))])])⟩

/-- `Client.create_screenshot`: read the file (the filesystem is modelled as
    the total map `fs` from filename to byte content; an unreadable file would
    raise `IOError` before any request and is outside the model), base64-encode
    it, guess the MIME type from the filename with default `image/jpeg`, and
    `POST` the payload. -/
def Client.create_screenshot (c : Client) (w : World) (fs : String → List Nat)
    (t : Trace) (app_id : PyVal) (filename : String) (position : PyVal) :
    HttpResponse × Trace :=
  let s_content := fs filename
  let s_encoded := b64encode s_content
  let url := pyMod (c.url "create_screenshot") app_id
  let mtype := (guess_type filename).getD "image/jpeg"
  fetch w t "POST" url
    (some (.dict [("position", position),
      ("file", .dict [("type", .str mtype), ("data", .str s_encoded)])]))

/-- `Client.add_content_ratings`: `POST` `'%s'`-formatted submission id and
    security code to `url('content_ratings') % app_id`. -/
def Client.add_content_ratings (c : Client) (w : World) (t : Trace) (app_id : PyVal)
    (submission_id : PyVal) (security_code : PyVal) : HttpResponse × Trace :=
  fetch w t "POST" (pyMod (c.url "content_ratings") app_id)
    (some (.dict [("submission_id", .str (pyStr submission_id)),
                  ("security_code", .str (pyStr security_code))]))

/-- `Client.app_state`: assert that at least one of `status` and
    `disabled_by_user` is not `None`, then `PATCH` a dict holding only the
    *truthy* ones of the two fields to `url('enable') % app_id`. -/
def Client.app_state (c : Client) (w : World) (t : Trace) (app_id : PyVal)
    (status : PyVal) (disabled_by_user : PyVal) : Except PyErr HttpResponse × Trace :=
  if status ≠ PyVal.none ∨ disabled_by_user ≠ PyVal.none then
    let data : List (String × PyVal) :=
      (if status.truthy then [("status", status)] else []) ++
      (if disabled_by_user.truthy then [("disabled_by_user", disabled_by_user)] else [])
    match fetch w t "PATCH" (pyMod (c.url "enable") app_id) (some (.dict data)) with
    | (response, t') => (.ok response, t')
  else (.error .assertionError, t)

/-- One onboarding input, a JSON descriptor from `reviewer_apps/` (external
    configuration); the fields read by `main` are modelled as present, with
    arbitrary `PyVal` contents. -/
structure AppDescriptor where
  manifest_url : PyVal
  categories : PyVal
  device_types : PyVal
  privacy_policy : PyVal

/-- The Submit step of `main` (the list comprehension over `validate`): for
    each descriptor, `validate_manifest`; on status 201 keep
    `json.loads(response.content)['id']`, otherwise raise `RuntimeError`. -/
def validatePhase (c : Client) (w : World) (t : Trace) :
    List AppDescriptor → Except PyErr (List PyVal) × Trace
  | [] => (.ok [], t)
  | app :: rest =>
    match c.validate_manifest w t app.manifest_url with
    | (response, t') =>
      if response.status_code = 201 then
        match (json_loads response.content).item "id" with
        | Option.none => (.error (.keyError "id"), t')
        | some vid =>
          match validatePhase c w t' rest with
          | (.ok vids, t'') => (.ok (vid :: vids), t'')
          | (.error e, t'') => (.error e, t'')
      else (.error .runtimeError, t')

/-- One pass of the inner `for manifest_id in list(pending)` loop: poll every
    id of the snapshot; raise `RuntimeError` on a non-200 status or on a
    processed-but-invalid result; remove from `pending` the ids whose result
    is processed and valid. -/
def sweep (c : Client) (w : World) : List PyVal → List PyVal → Trace →
    Except PyErr (List PyVal) × Trace
  | [], pending, t => (.ok pending, t)
  | mid :: rest, pending, t =>
    match c.get_manifest_validation_result w t mid with
    | (response, t') =>
      if response.status_code ≠ 200 then (.error .runtimeError, t')
      else
        match (json_loads response.content).item "processed" with
        | Option.none => (.error (.keyError "processed"), t')
        | some p =>
          if p.truthy then
            match (json_loads response.content).item "valid" with
            | Option.none => (.error (.keyError "valid"), t')
            | some v =>
              if v.truthy then sweep c w rest (pending.erase mid) t'
              else (.error .runtimeError, t')
          else sweep c w rest pending t'

/-- The `while pending:` polling loop of `main`.  The source busy-polls with
    no timeout, so it need not terminate; the model adds a fuel parameter and
    flags fuel exhaustion with the artificial error `nonTermination` (absent
    from the source).  Python iterates `list(pending)`, a snapshot of the set,
    while removals mutate the set itself; the set (of hashable, distinct ids)
    is modelled as the duplicate-free list that seeds it, its arbitrary hash
    order as the list order. -/
def pollLoop (c : Client) (w : World) : Nat → List PyVal → Trace →
    Except PyErr Unit × Trace
  | _, [], t => (.ok (), t)
  | 0, _ :: _, t => (.error .nonTermination, t)
  | fuel + 1, mid :: rest, t =>
    match sweep c w (mid :: rest) (mid :: rest) t with
    | (.error e, t') => (.error e, t')
    | (.ok pending', t') => pollLoop c w fuel pending' t'

/-- The Create step of `main` (the list comprehension over `creat`): for each
    validation id in submission order, `create`; raise `RuntimeError` on a
    non-201 status, otherwise collect `json.loads(response.content)['id']`. -/
def createPhase (c : Client) (w : World) (t : Trace) :
    List PyVal → Except PyErr (List PyVal) × Trace
  | [] => (.ok [], t)
  | vid :: rest =>
    match c.create w t vid with
    | (response, t') =>
      if response.status_code ≠ 201 then (.error .runtimeError, t')
      else
        match (json_loads response.content).item "id" with
        | Option.none => (.error (.keyError "id"), t')
        | some appid =>
          match createPhase c w t' rest with
          | (.ok ids, t'') => (.ok (appid :: ids), t'')
          | (.error e, t'') => (.error e, t'')

/-- Python `'App %d' % (app_id,)`: `%d` formats an integer (or a bool, an int
    subtype in Python); any other value raises `TypeError`. -/
def formatAppD : PyVal → Except PyErr String
  | .int n => .ok ("App " ++ toString n)
  | .bool b => .ok ("App " ++ (if b then "1" else "0"))
  | _ => .error .typeError

/-- The literal dict `main` passes to `update`, in source order. -/
def populateData (app_id : PyVal) (app : AppDescriptor) :
    Except PyErr (List (String × PyVal)) :=
  match formatAppD app_id with
  | .error e => .error e
  | .ok nm =>
    .ok [("name", .str nm), ("summary", .str nm), ("categories", app.categories),
         ("support_email", .str "app-reviewers@mozilla.org"),
         ("device_types", app.device_types),
         ("privacy_policy", app.privacy_policy), ("premium_type", .str "free")]

/-- The Populate step of `main`, the `for (app_id, app) in zip(appids, apps)`
    loop: `update` (raising `RuntimeError` unless its status is 202), then
    `create_screenshot` of `appdir/screenshot.png`, then `add_content_ratings`
    with submission id 0 and security code 0.  The source never looks at the
    status of the last two responses. -/
def populatePhase (c : Client) (w : World) (fs : String → List Nat)
    (shot : String) (t : Trace) : List (PyVal × AppDescriptor) → Except PyErr Unit × Trace
  | [] => (.ok (), t)
  | (app_id, app) :: rest =>
    match populateData app_id app with
    | .error e => (.error e, t)
    | .ok data =>
      match c.update w t app_id data with
      | (.error e, t') => (.error e, t')
      | (.ok response, t') =>
        if response.status_code ≠ 202 then (.error .runtimeError, t')
        else
          match c.create_screenshot w fs t' app_id shot (.int 1) with
          | (_, t'') =>
            match c.add_content_ratings w t'' app_id (.int 0) (.int 0) with
            | (_, t''') => populatePhase c w fs shot t''' rest

/-- The whole batch run of `main`, from the loaded descriptors on: Submit,
    the polling loop, Create, Populate.  `appdir` is the directory of the
    descriptor files, whence the screenshot path `appdir/screenshot.png`. -/
def runMain (c : Client) (w : World) (fs : String → List Nat) (appdir : String)
    (apps : List AppDescriptor) (fuel : Nat) : Except PyErr Unit × Trace :=
  match validatePhase c w [] apps with
  | (.error e, t) => (.error e, t)
  | (.ok vids, t) =>
    match pollLoop c w fuel vids.dedup t with
    | (.error e, t') => (.error e, t')
    | (.ok _, t') =>
      match createPhase c w t' vids with
      | (.error e, t'') => (.error e, t'')
      | (.ok appids, t'') =>
          populatePhase c w fs (appdir ++ "/screenshot.png") t'' (appids.zip apps)

/-! ### Helper lemmas about URL construction -/

/-- Everything `Client.url` puts in front of the resource-path template. -/
def urlBase (c : Client) : String :=
  (if c.protocol ≠ "" then c.protocol ++ ":" else "") ++
  ("//" ++ (c.domain ++ ":" ++ toString c.port) ++
    (if c.pre ++ "/api/v1" ≠ "" ∧ (c.pre ++ "/api/v1").data.head? ≠ some '/'
      then "/" else "")) ++
  (c.pre ++ "/api/v1")

theorem string_append_left_cancel {s t u : String} (h : s ++ t = s ++ u) : t = u := by
  have h2 := congrArg String.data h
  simp only [String.data_append] at h2
  exact String.ext (List.append_cancel_left h2)

theorem append_colon_ne_empty (a b : String) : a ++ ":" ++ b ≠ "" := by
  intro h
  have hc : (":" : String).data = [':'] := rfl
  have h2 := congrArg String.data h
  simp [String.data_append, hc] at h2

theorem append_api_ne_empty (a b : String) : a ++ "/api/v1" ++ b ≠ "" := by
  intro h
  have hc : ("/api/v1" : String).data = ['/', 'a', 'p', 'i', '/', 'v', '1'] := rfl
  have h2 := congrArg String.data h
  simp [String.data_append, hc] at h2

theorem data_head?_append (x y : String) (hx : x.data ≠ []) :
    (x ++ y).data.head? = x.data.head? := by
  rw [String.data_append]
  cases hx2 : x.data with
  | nil => exact absurd hx2 hx
  | cons a l => simp

theorem pre_api_ne_empty (c : Client) : c.pre ++ "/api/v1" ≠ "" := by
  intro h
  have hc : ("/api/v1" : String).data = ['/', 'a', 'p', 'i', '/', 'v', '1'] := rfl
  have h2 := congrArg String.data h
  simp [String.data_append, hc] at h2

/-- `Client.url` is the key-independent base followed by the template. -/
theorem url_eq_base (c : Client) (key : String) :
    c.url key = urlBase c ++ URLS key := by
  have hnet : c.domain ++ ":" ++ toString c.port ≠ "" :=
    append_colon_ne_empty c.domain (toString c.port)
  have hpath : c.pre ++ "/api/v1" ++ URLS key ≠ "" :=
    append_api_ne_empty c.pre (URLS key)
  have hhead : (c.pre ++ "/api/v1" ++ URLS key).data.head? =
      (c.pre ++ "/api/v1").data.head? :=
    data_head?_append (c.pre ++ "/api/v1") (URLS key)
      (fun h => pre_api_ne_empty c (String.ext (by simp [h])))
  rw [Client.url, urlunparse, urlBase]
  rw [if_pos (Or.inl hnet)]
  rw [hhead]
  have hiff : (c.pre ++ "/api/v1" ++ URLS key ≠ "" ∧
      (c.pre ++ "/api/v1").data.head? ≠ some '/') ↔
      (c.pre ++ "/api/v1" ≠ "" ∧ (c.pre ++ "/api/v1").data.head? ≠ some '/') := by
    constructor
    · rintro ⟨_, h2⟩
      exact ⟨pre_api_ne_empty c, h2⟩
    · rintro ⟨_, h2⟩
      exact ⟨hpath, h2⟩
  rw [if_congr hiff rfl rfl]
  apply String.ext
  simp [String.data_append, List.append_assoc]

/-- Distinct templates give distinct URLs (for the same client). -/
theorem url_ne_of_tmpl_ne (c : Client) (k₁ k₂ : String) (h : URLS k₁ ≠ URLS k₂) :
    c.url k₁ ≠ c.url k₂ := by
  intro heq
  rw [url_eq_base, url_eq_base] at heq
  exact h (string_append_left_cancel heq)

/-- The URL shape of the spec under the conditions that actually yield it:
    nonempty protocol, and a prefix that is empty or starts with `/`. -/
theorem url_shape (c : Client) (hproto : c.protocol ≠ "")
    (hpre : c.pre = "" ∨ c.pre.data.head? = some '/') (key : String) :
    c.url key = c.protocol ++ "://" ++ c.domain ++ ":" ++ toString c.port ++
      c.pre ++ "/api/v1" ++ URLS key := by
  rw [url_eq_base, urlBase]
  rw [if_pos hproto]
  have hslash : ¬ (c.pre ++ "/api/v1" ≠ "" ∧
      (c.pre ++ "/api/v1").data.head? ≠ some '/') := by
    rintro ⟨-, h2⟩
    apply h2
    rcases hpre with h | h
    · rw [h]
      rfl
    · rw [data_head?_append c.pre "/api/v1" (fun hh => by
        rw [String.ext hh] at h
        exact Option.noConfusion h)]
      exact h
  rw [if_neg hslash]
  apply String.ext
  have hc : ("://" : String).data = [':', '/', '/'] := rfl
  have hc2 : ("//" : String).data = ['/', '/'] := rfl
  have hc3 : (":" : String).data = [':'] := rfl
  simp [String.data_append, hc, hc2, hc3, List.append_assoc]

/-! ### Helper lemmas about the orchestrator's trace -/

/-- The request issued by `validate_manifest`. -/
def validateRequest (c : Client) (m : PyVal) : Request :=
  ⟨"POST", c.url "validate", some (.dict [("manifest", m)])⟩

/-- The request issued by `add_content_ratings`. -/
def ratingsRequest (c : Client) (app_id submission security : PyVal) : Request :=
  ⟨"POST", pyMod (c.url "content_ratings") app_id,
    some (.dict [("submission_id", .str (pyStr submission)),
                 ("security_code", .str (pyStr security))])⟩

/-- `validate_manifest` consults the server at the current call index with
    `validateRequest` and logs it. -/
theorem validate_manifest_eq (c : Client) (w : World) (t : Trace) (m : PyVal) :
    c.validate_manifest w t m =
      (w.server t.length (validateRequest c m), t ++ [validateRequest c m]) := rfl

/-- `get_manifest_validation_result` consults the server at the current call
    index with `gmvrRequest` and logs that request. -/
theorem gmvr_eq (c : Client) (w : World) (t : Trace) (mid : PyVal) :
    c.get_manifest_validation_result w t mid =
      (w.server t.length (gmvrRequest c mid), t ++ [gmvrRequest c mid]) := rfl

/-- `create` consults the server at the current call index with
    `createRequest` and logs it. -/
theorem create_eq (c : Client) (w : World) (t : Trace) (vid : PyVal) :
    c.create w t vid =
      (w.server t.length (createRequest c vid), t ++ [createRequest c vid]) := rfl

/-- `create_screenshot` consults the server at the current call index with
    `screenshotRequest` and logs it. -/
theorem screenshot_eq (c : Client) (w : World) (fs : String → List Nat) (t : Trace)
    (app_id : PyVal) (filename : String) (position : PyVal) :
    c.create_screenshot w fs t app_id filename position =
      (w.server t.length (screenshotRequest c fs app_id filename position),
       t ++ [screenshotRequest c fs app_id filename position]) := rfl

/-- `add_content_ratings` consults the server at the current call index with
    `ratingsRequest` and logs it. -/
theorem ratings_eq (c : Client) (w : World) (t : Trace) (app_id s sec : PyVal) :
    c.add_content_ratings w t app_id s sec =
      (w.server t.length (ratingsRequest c app_id s sec),
       t ++ [ratingsRequest c app_id s sec]) := rfl

/-- `update` when the precondition assertion passes. -/
theorem update_eq_of_assert (c : Client) (w : World) (t : Trace) (app_id : PyVal)
    (data : List (String × PyVal)) (h : updateAssert data = true) :
    c.update w t app_id data =
      (.ok (w.server t.length (updateRequest c app_id data)),
       t ++ [updateRequest c app_id data]) := by
  rw [Client.update, if_pos h]
  rfl

/-- `update` when the precondition assertion fails. -/
theorem update_eq_of_not_assert (c : Client) (w : World) (t : Trace) (app_id : PyVal)
    (data : List (String × PyVal)) (h : updateAssert data = false) :
    c.update w t app_id data = (.error .assertionError, t) := by
  rw [Client.update, if_neg (by simp [h])]

/-- If `update` returned a response, its assertion passed, the response came
    from the server at the current index, and exactly `updateRequest` was
    logged. -/
theorem update_ok (c : Client) (w : World) (t : Trace) (app_id : PyVal)
    (data : List (String × PyVal)) (response : HttpResponse) (t' : Trace)
    (h : c.update w t app_id data = (.ok response, t')) :
    t' = t ++ [updateRequest c app_id data] ∧
    response = w.server t.length (updateRequest c app_id data) := by
  rw [Client.update] at h
  split at h
  · injection h with h1 h2
    injection h1 with h1
    exact ⟨h2.symm, h1.symm⟩
  · injection h with h1 h2
    injection h1

/-- If `update` raised, nothing was logged (the assertion precedes the
    `fetch`). -/
theorem update_err (c : Client) (w : World) (t : Trace) (app_id : PyVal)
    (data : List (String × PyVal)) (e : PyErr) (t' : Trace)
    (h : c.update w t app_id data = (.error e, t')) : t' = t := by
  rw [Client.update] at h
  split at h
  · injection h with h1 h2
    injection h1
  · injection h with h1 h2
    exact h2.symm

/-- At index `j` of the run's trace `T`, the id `mid` was polled and the
    server's response (the one the run received, since call `j` consults
    `w.server j`) was status 200 with a truthy `processed` and a truthy
    `valid`. -/
def observedValidAt (w : World) (T : Trace) (c : Client) (mid : PyVal) (j : Nat) : Prop :=
  T[j]? = some (gmvrRequest c mid) ∧
  (w.server j (gmvrRequest c mid)).status_code = 200 ∧
  (∃ p, (json_loads (w.server j (gmvrRequest c mid)).content).item "processed" = some p ∧
    p.truthy = true) ∧
  (∃ v, (json_loads (w.server j (gmvrRequest c mid)).content).item "valid" = some v ∧
    v.truthy = true)

/-- An observation at an index inside a trace survives extending the trace. -/
theorem observedValidAt_mono (w : World) (c : Client) (mid : PyVal) (j : Nat)
    (t₁ : Trace) (Δ : Trace) (hj : j < t₁.length)
    (h : observedValidAt w t₁ c mid j) : observedValidAt w (t₁ ++ Δ) c mid j := by
  refine ⟨?_, h.2.1, h.2.2.1, h.2.2.2⟩
  rw [List.getElem?_append, if_pos hj]
  exact h.1

/-- The Submit step only extends the trace, with `POST`s to the `validate`
    URL. -/
theorem validatePhase_trace (c : Client) (w : World) (apps : List AppDescriptor) :
    ∀ t : Trace, ∃ Δ : Trace, (validatePhase c w t apps).2 = t ++ Δ ∧
      ∀ r ∈ Δ, r.method = "POST" ∧ r.url = c.url "validate" := by
  induction apps with
  | nil =>
    intro t
    exact ⟨[], by simp [validatePhase], by simp⟩
  | cons app rest ih =>
    intro t
    rw [validatePhase]
    simp only [validate_manifest_eq]
    split
    · split
      · exact ⟨[validateRequest c app.manifest_url], rfl, by
          intro r hr
          rcases List.mem_singleton.mp hr with rfl
          exact ⟨rfl, rfl⟩⟩
      · split
        all_goals
          rename_i heq
          obtain ⟨Δ, hΔ, hmem⟩ := ih (t ++ [validateRequest c app.manifest_url])
          rw [heq] at hΔ
          refine ⟨validateRequest c app.manifest_url :: Δ, hΔ.trans (by simp), ?_⟩
          intro r hr
          rcases List.mem_cons.mp hr with rfl | hr
          · exact ⟨rfl, rfl⟩
          · exact hmem r hr
    · exact ⟨[validateRequest c app.manifest_url], rfl, by
        intro r hr
        rcases List.mem_singleton.mp hr with rfl
        exact ⟨rfl, rfl⟩⟩

/-- A sweep only extends the trace, with poll requests. -/
theorem sweep_trace (c : Client) (w : World) (snap : List PyVal) :
    ∀ (pending : List PyVal) (t : Trace),
      ∃ Δ : Trace, (sweep c w snap pending t).2 = t ++ Δ ∧
        ∀ r ∈ Δ, ∃ mid, r = gmvrRequest c mid := by
  induction snap with
  | nil =>
    intro pending t
    exact ⟨[], by simp [sweep], by simp⟩
  | cons mid rest ih =>
    intro pending t
    rw [sweep]
    simp only [gmvr_eq]
    split
    · exact ⟨[gmvrRequest c mid], rfl, by
        intro r hr
        rcases List.mem_singleton.mp hr with rfl
        exact ⟨mid, rfl⟩⟩
    · split
      · exact ⟨[gmvrRequest c mid], rfl, by
          intro r hr
          rcases List.mem_singleton.mp hr with rfl
          exact ⟨mid, rfl⟩⟩
      · split
        · split
          · exact ⟨[gmvrRequest c mid], rfl, by
              intro r hr
              rcases List.mem_singleton.mp hr with rfl
              exact ⟨mid, rfl⟩⟩
          · split
            · obtain ⟨Δ, hΔ, hmem⟩ := ih (pending.erase mid) (t ++ [gmvrRequest c mid])
              refine ⟨gmvrRequest c mid :: Δ, by rw [hΔ]; simp, ?_⟩
              intro r hr
              rcases List.mem_cons.mp hr with rfl | hr
              · exact ⟨mid, rfl⟩
              · exact hmem r hr
            · exact ⟨[gmvrRequest c mid], rfl, by
                intro r hr
                rcases List.mem_singleton.mp hr with rfl
                exact ⟨mid, rfl⟩⟩
        · obtain ⟨Δ, hΔ, hmem⟩ := ih pending (t ++ [gmvrRequest c mid])
          refine ⟨gmvrRequest c mid :: Δ, by rw [hΔ]; simp, ?_⟩
          intro r hr
          rcases List.mem_cons.mp hr with rfl | hr
          · exact ⟨mid, rfl⟩
          · exact hmem r hr

/-- The polling loop only extends the trace, with poll requests. -/
theorem pollLoop_trace (c : Client) (w : World) :
    ∀ (fuel : Nat) (pending : List PyVal) (t : Trace),
      ∃ Δ : Trace, (pollLoop c w fuel pending t).2 = t ++ Δ ∧
        ∀ r ∈ Δ, ∃ mid, r = gmvrRequest c mid := by
  intro fuel
  induction fuel with
  | zero =>
    intro pending t
    cases pending with
    | nil => exact ⟨[], by simp [pollLoop], by simp⟩
    | cons mid rest => exact ⟨[], by simp [pollLoop], by simp⟩
  | succ fuel ih =>
    intro pending t
    cases pending with
    | nil => exact ⟨[], by simp [pollLoop], by simp⟩
    | cons mid rest =>
      rw [pollLoop]
      split
      · rename_i e t₁ heq
        obtain ⟨Δ, hΔ, hmem⟩ := sweep_trace c w (mid :: rest) (mid :: rest) t
        rw [heq] at hΔ
        exact ⟨Δ, hΔ, hmem⟩
      · rename_i pending' t₁ heq
        obtain ⟨Δ₁, hΔ₁, hmem₁⟩ := sweep_trace c w (mid :: rest) (mid :: rest) t
        rw [heq] at hΔ₁
        have h1 : t₁ = t ++ Δ₁ := hΔ₁
        obtain ⟨Δ₂, hΔ₂, hmem₂⟩ := ih pending' t₁
        refine ⟨Δ₁ ++ Δ₂, by rw [hΔ₂, h1, List.append_assoc], ?_⟩
        intro r hr
        rcases List.mem_append.mp hr with hr | hr
        · exact hmem₁ r hr
        · exact hmem₂ r hr

/-- The Create step only extends the trace. -/
theorem createPhase_trace (c : Client) (w : World) (vids : List PyVal) :
    ∀ t : Trace, ∃ Δ : Trace, (createPhase c w t vids).2 = t ++ Δ := by
  induction vids with
  | nil =>
    intro t
    exact ⟨[], by simp [createPhase]⟩
  | cons vid rest ih =>
    intro t
    rw [createPhase]
    simp only [create_eq]
    split
    · exact ⟨[createRequest c vid], rfl⟩
    · split
      · exact ⟨[createRequest c vid], rfl⟩
      · split
        all_goals
          rename_i heq
          obtain ⟨Δ, hΔ⟩ := ih (t ++ [createRequest c vid])
          rw [heq] at hΔ
          exact ⟨createRequest c vid :: Δ, hΔ.trans (by simp)⟩

/-- The Populate step only extends the trace. -/
theorem populatePhase_trace (c : Client) (w : World) (fs : String → List Nat)
    (shot : String) (pairs : List (PyVal × AppDescriptor)) :
    ∀ t : Trace, ∃ Δ : Trace, (populatePhase c w fs shot t pairs).2 = t ++ Δ := by
  induction pairs with
  | nil =>
    intro t
    exact ⟨[], by simp [populatePhase]⟩
  | cons pair rest ih =>
    intro t
    rw [populatePhase]
    split
    · exact ⟨[], by simp⟩
    · rename_i data hdata
      split
      · rename_i e t₁ heq
        exact ⟨[], by simp [update_err c w t pair.1 data e t₁ heq]⟩
      · rename_i response t₁ heq
        obtain ⟨ht₁, hresp⟩ := update_ok c w t pair.1 data response t₁ heq
        split
        · exact ⟨[updateRequest c pair.1 data], by rw [ht₁]⟩
        · simp only [screenshot_eq, ratings_eq]
          obtain ⟨Δ, hΔ⟩ := ih (t₁ ++ [screenshotRequest c fs pair.1 shot (.int 1)] ++
            [ratingsRequest c pair.1 (.int 0) (.int 0)])
          exact ⟨updateRequest c pair.1 data :: screenshotRequest c fs pair.1 shot (.int 1) ::
            ratingsRequest c pair.1 (.int 0) (.int 0) :: Δ,
            hΔ.trans (by rw [ht₁]; simp)⟩

/-- If a sweep completed and `mid₀` left the pending set, some poll of `mid₀`
    during the sweep was answered status 200 with truthy `processed` and
    `valid`. -/
theorem sweep_removed (c : Client) (w : World) (snap : List PyVal) :
    ∀ (pending : List PyVal) (t : Trace) (pending' : List PyVal) (t' : Trace),
      sweep c w snap pending t = (.ok pending', t') →
      ∀ mid₀ : PyVal, mid₀ ∈ pending → mid₀ ∉ pending' →
      ∃ j, t.length ≤ j ∧ j < t'.length ∧ observedValidAt w t' c mid₀ j := by
  induction snap with
  | nil =>
    intro pending t pending' t' h mid₀ hin hout
    rw [sweep] at h
    injection h with h1 h2
    injection h1 with h1
    subst h1
    exact absurd hin hout
  | cons mid rest ih =>
    intro pending t pending' t' h mid₀ hin hout
    rw [sweep] at h
    simp only [gmvr_eq] at h
    split at h
    · simp at h
    · split at h
      · simp at h
      · rename_i p hp
        split at h
        · rename_i hpt
          split at h
          · simp at h
          · rename_i v hv
            split at h
            · rename_i hvt
              by_cases hmid : mid₀ = mid
              · subst hmid
                obtain ⟨Δ, hΔ, _⟩ := sweep_trace c w rest (pending.erase mid₀)
                  (t ++ [gmvrRequest c mid₀])
                rw [h] at hΔ
                have hT : t' = t ++ [gmvrRequest c mid₀] ++ Δ := hΔ
                refine ⟨t.length, le_refl _, ?_, ?_, ?_, ⟨p, hp, hpt⟩, ⟨v, hv, hvt⟩⟩
                · rw [hT]
                  simp
                · rw [hT, List.getElem?_append,
                    if_pos (by simp : t.length < (t ++ [gmvrRequest c mid₀]).length)]
                  exact List.getElem?_concat_length t (gmvrRequest c mid₀)
                · rename_i hst
                  omega
              · have hin' : mid₀ ∈ pending.erase mid :=
                  (List.mem_erase_of_ne hmid).mpr hin
                obtain ⟨j, hj1, hj2, hobs⟩ := ih (pending.erase mid)
                  (t ++ [gmvrRequest c mid]) pending' t' h mid₀ hin' hout
                refine ⟨j, ?_, hj2, hobs⟩
                calc t.length ≤ (t ++ [gmvrRequest c mid]).length := by simp
                  _ ≤ j := hj1
            · simp at h
        · obtain ⟨j, hj1, hj2, hobs⟩ := ih pending (t ++ [gmvrRequest c mid])
            pending' t' h mid₀ hin hout
          refine ⟨j, ?_, hj2, hobs⟩
          calc t.length ≤ (t ++ [gmvrRequest c mid]).length := by simp
            _ ≤ j := hj1

/-- If the polling loop returned normally, every id that was pending at its
    start was observed processed-and-valid at some poll of the loop. -/
theorem pollLoop_observed (c : Client) (w : World) :
    ∀ (fuel : Nat) (pending : List PyVal) (t : Trace) (t' : Trace),
      pollLoop c w fuel pending t = (.ok (), t') →
      ∀ mid₀ ∈ pending, ∃ j, t.length ≤ j ∧ j < t'.length ∧
        observedValidAt w t' c mid₀ j := by
  intro fuel
  induction fuel with
  | zero =>
    intro pending t t' h mid₀ hin
    cases pending with
    | nil => exact absurd hin (List.not_mem_nil mid₀)
    | cons mid rest =>
      rw [pollLoop] at h
      simp at h
  | succ fuel ih =>
    intro pending t t' h mid₀ hin
    cases pending with
    | nil => exact absurd hin (List.not_mem_nil mid₀)
    | cons mid rest =>
      rw [pollLoop] at h
      split at h
      · simp at h
      · rename_i pending' t₁ heq
        by_cases hmem : mid₀ ∈ pending'
        · obtain ⟨j, hj1, hj2, hobs⟩ := ih pending' t₁ t' h mid₀ hmem
          obtain ⟨Δ₁, hΔ₁, _⟩ := sweep_trace c w (mid :: rest) (mid :: rest) t
          rw [heq] at hΔ₁
          have h1 : t₁ = t ++ Δ₁ := hΔ₁
          refine ⟨j, ?_, hj2, hobs⟩
          calc t.length ≤ t₁.length := by rw [h1]; simp
            _ ≤ j := hj1
        · obtain ⟨j, hj1, hj2, hobs⟩ :=
            sweep_removed c w (mid :: rest) (mid :: rest) t pending' t₁ heq mid₀ hin hmem
          obtain ⟨Δ₂, hΔ₂, _⟩ := pollLoop_trace c w fuel pending' t₁
          rw [h] at hΔ₂
          have h2 : t' = t₁ ++ Δ₂ := hΔ₂
          refine ⟨j, hj1, ?_, ?_⟩
          · rw [h2]
            calc j < t₁.length := hj2
              _ ≤ (t₁ ++ Δ₂).length := by simp
          · rw [h2]
            exact observedValidAt_mono w c mid₀ j t₁ Δ₂ hj2 hobs

/-- The Submit step returns one validation id per descriptor. -/
theorem validatePhase_length (c : Client) (w : World) (apps : List AppDescriptor) :
    ∀ (t : Trace) (vids : List PyVal) (t' : Trace),
      validatePhase c w t apps = (.ok vids, t') → vids.length = apps.length := by
  induction apps with
  | nil =>
    intro t vids t' h
    rw [validatePhase] at h
    injection h with h1 h2
    injection h1 with h1
    rw [← h1]
    rfl
  | cons app rest ih =>
    intro t vids t' h
    rw [validatePhase] at h
    simp only [validate_manifest_eq] at h
    split at h
    · split at h
      · simp at h
      · split at h
        · rename_i vids' t'' heq
          injection h with h1 h2
          injection h1 with h1
          rw [← h1]
          simp [ih _ _ _ heq]
        · simp at h
    · simp at h

/-- `validate` and `create` have different URLs (for any client). -/
theorem url_validate_ne_create (c : Client) : c.url "validate" ≠ c.url "create" :=
  url_ne_of_tmpl_ne c "validate" "create" (by decide)

/-- Claim C1: in every batch run, no `create` call (a `POST` to the `create`
    URL) appears in the trace until every submitted validation id has been
    observed with truthy `processed` and `valid`; and against a server that
    answers every poll processed-but-invalid (the spec's mocked first-poll
    scenario), the run aborts with an error and `create` is never called for
    any app. -/
theorem claim_C1 (c : Client) (w : World) (fs : String → List Nat) (appdir : String)
    (apps : List AppDescriptor) (fuel : Nat) :
    (∀ (i : Nat) (r : Request),
      (runMain c w fs appdir apps fuel).2[i]? = some r →
      r.method = "POST" → r.url = c.url "create" →
      ∃ (vids : List PyVal) (t₀ : Trace),
        validatePhase c w [] apps = (.ok vids, t₀) ∧
        ∀ vid ∈ vids, ∃ j, j < i ∧
          observedValidAt w (runMain c w fs appdir apps fuel).2 c vid j) ∧
    (apps ≠ [] → 1 ≤ fuel →
      (∀ (k : Nat) (mid : PyVal),
        (∃ p, (json_loads (w.server k (gmvrRequest c mid)).content).item "processed"
          = some p ∧ p.truthy = true) ∧
        (∃ v, (json_loads (w.server k (gmvrRequest c mid)).content).item "valid"
          = some v ∧ v.truthy = false)) →
      (∃ e, (runMain c w fs appdir apps fuel).1 = .error e) ∧
      ∀ r ∈ (runMain c w fs appdir apps fuel).2,
        ¬(r.method = "POST" ∧ r.url = c.url "create")) := by
  constructor
  · -- Part A: a create call implies every id was observed valid earlier.
    intro i r hget hpost hurl
    rcases hval : validatePhase c w [] apps with ⟨res₀, t₀⟩
    obtain ⟨Δ₀, hΔ₀, hmem₀⟩ := validatePhase_trace c w apps []
    rw [hval] at hΔ₀
    have ht₀ : t₀ = Δ₀ := by simpa using hΔ₀
    have hvalmem : ∀ r' ∈ t₀, r'.method = "POST" ∧ r'.url = c.url "validate" := by
      intro r' hr'
      rw [ht₀] at hr'
      exact hmem₀ r' hr'
    cases res₀ with
    | error e =>
      have hrun : runMain c w fs appdir apps fuel = (.error e, t₀) := by
        rw [runMain, hval]
      rw [hrun] at hget
      have hr : r ∈ t₀ := List.getElem?_mem hget
      exact absurd ((hvalmem r hr).2.symm.trans hurl) (url_validate_ne_create c)
    | ok vids =>
      rcases hpoll : pollLoop c w fuel vids.dedup t₀ with ⟨resP, t₁⟩
      obtain ⟨Δ₁, hΔ₁, hmem₁⟩ := pollLoop_trace c w fuel vids.dedup t₀
      rw [hpoll] at hΔ₁
      have ht₁ : t₁ = t₀ ++ Δ₁ := hΔ₁
      have ht₁mem : ∀ r' ∈ t₁, r'.method = "POST" → r'.url = c.url "create" → False := by
        intro r' hr' hpost' hurl'
        rw [ht₁] at hr'
        rcases List.mem_append.mp hr' with hh | hh
        · exact absurd ((hvalmem r' hh).2.symm.trans hurl') (url_validate_ne_create c)
        · obtain ⟨m, rfl⟩ := hmem₁ r' hh
          simp [gmvrRequest] at hpost'
      cases resP with
      | error e =>
        have hrun : runMain c w fs appdir apps fuel = (.error e, t₁) := by
          simp only [runMain, hval, hpoll]
        rw [hrun] at hget
        exact (ht₁mem r (List.getElem?_mem hget) hpost hurl).elim
      | ok u =>
        cases u
        rcases hcr : createPhase c w t₁ vids with ⟨resC, t₂⟩
        obtain ⟨Δ₂, hΔ₂⟩ := createPhase_trace c w vids t₁
        rw [hcr] at hΔ₂
        have ht₂ : t₂ = t₁ ++ Δ₂ := hΔ₂
        have hT : ∃ Δr, (runMain c w fs appdir apps fuel).2 = t₁ ++ Δr := by
          cases resC with
          | error e =>
            have hrun : runMain c w fs appdir apps fuel = (.error e, t₂) := by
              simp only [runMain, hval, hpoll, hcr]
            rw [hrun, ht₂]
            exact ⟨Δ₂, rfl⟩
          | ok appids =>
            have hrun : runMain c w fs appdir apps fuel =
                populatePhase c w fs (appdir ++ "/screenshot.png") t₂ (appids.zip apps) := by
              simp only [runMain, hval, hpoll, hcr]
            obtain ⟨Δ₃, hΔ₃⟩ := populatePhase_trace c w fs (appdir ++ "/screenshot.png")
              (appids.zip apps) t₂
            rw [hrun, hΔ₃, ht₂, List.append_assoc]
            exact ⟨Δ₂ ++ Δ₃, rfl⟩
        obtain ⟨Δr, hTeq⟩ := hT
        have hi : t₁.length ≤ i := by
          by_contra hlt
          push_neg at hlt
          rw [hTeq, List.getElem?_append, if_pos hlt] at hget
          exact ht₁mem r (List.getElem?_mem hget) hpost hurl
        refine ⟨vids, t₀, rfl, ?_⟩
        intro vid hvid
        obtain ⟨j, hj1, hj2, hobs⟩ := pollLoop_observed c w fuel vids.dedup t₀ t₁ hpoll
          vid (List.mem_dedup.mpr hvid)
        refine ⟨j, lt_of_lt_of_le hj2 hi, ?_⟩
        rw [hTeq]
        exact observedValidAt_mono w c vid j t₁ Δr hj2 hobs
  · -- Part B: against an always-invalid server the run errors before create.
    intro hne hfuel hsrv
    rcases hval : validatePhase c w [] apps with ⟨res₀, t₀⟩
    obtain ⟨Δ₀, hΔ₀, hmem₀⟩ := validatePhase_trace c w apps []
    rw [hval] at hΔ₀
    have ht₀ : t₀ = Δ₀ := by simpa using hΔ₀
    have hvalmem : ∀ r' ∈ t₀, r'.method = "POST" ∧ r'.url = c.url "validate" := by
      intro r' hr'
      rw [ht₀] at hr'
      exact hmem₀ r' hr'
    cases res₀ with
    | error e =>
      have hrun : runMain c w fs appdir apps fuel = (.error e, t₀) := by
        rw [runMain, hval]
      rw [hrun]
      refine ⟨⟨e, rfl⟩, ?_⟩
      rintro r hr ⟨hpost, hurl⟩
      exact absurd ((hvalmem r hr).2.symm.trans hurl) (url_validate_ne_create c)
    | ok vids =>
      have hvlen : vids.length = apps.length := validatePhase_length c w apps [] vids t₀ hval
      have hvne : vids ≠ [] := by
        intro hnil
        rw [hnil] at hvlen
        exact hne (List.length_eq_zero.mp hvlen.symm)
      rcases hd : vids.dedup with _ | ⟨mid, rest⟩
      · exact absurd ((List.dedup_eq_nil vids).mp hd) hvne
      obtain ⟨f, rfl⟩ : ∃ f, fuel = f + 1 := ⟨fuel - 1, by omega⟩
      have hsweep : sweep c w (mid :: rest) (mid :: rest) t₀ =
          (.error .runtimeError, t₀ ++ [gmvrRequest c mid]) := by
        rw [sweep]
        simp only [gmvr_eq]
        obtain ⟨p, hp, hpt⟩ := (hsrv t₀.length mid).1
        obtain ⟨v, hv, hvf⟩ := (hsrv t₀.length mid).2
        by_cases hst : (w.server t₀.length (gmvrRequest c mid)).status_code ≠ 200
        · rw [if_pos hst]
        · rw [if_neg hst]
          simp [hp, hpt, hv, hvf]
      have hrun : runMain c w fs appdir apps (f + 1) =
          (.error .runtimeError, t₀ ++ [gmvrRequest c mid]) := by
        simp only [runMain, hval, hd, pollLoop, hsweep]
      rw [hrun]
      refine ⟨⟨.runtimeError, rfl⟩, ?_⟩
      rintro r hr ⟨hpost, hurl⟩
      rcases List.mem_append.mp hr with hh | hh
      · exact absurd ((hvalmem r hh).2.symm.trans hurl) (url_validate_ne_create c)
      · rcases List.mem_singleton.mp hh with rfl
        simp [gmvrRequest] at hpost

/-- Claim C1 witness: one descriptor, fuel 1, a server whose every answer is
    processed-but-invalid — the run errors and no create request is made. -/
theorem claim_C1_witness :
    (∃ e, (runMain ⟨"m", "https", 443, ""⟩
      ⟨fun _ _ => ⟨200, .dict [("processed", .bool true), ("valid", .bool false),
        ("id", .str "v1")]⟩⟩
      (fun _ => []) "apps" [⟨.str "u", .list [.int 1], .list [.str "d"], .str "p"⟩]
      1).1 = .error e) ∧
    ∀ r ∈ (runMain ⟨"m", "https", 443, ""⟩
      ⟨fun _ _ => ⟨200, .dict [("processed", .bool true), ("valid", .bool false),
        ("id", .str "v1")]⟩⟩
      (fun _ => []) "apps" [⟨.str "u", .list [.int 1], .list [.str "d"], .str "p"⟩]
      1).2, ¬(r.method = "POST" ∧ r.url = Client.url ⟨"m", "https", 443, ""⟩ "create") :=
  (claim_C1 ⟨"m", "https", 443, ""⟩
    ⟨fun _ _ => ⟨200, .dict [("processed", .bool true), ("valid", .bool false),
      ("id", .str "v1")]⟩⟩
    (fun _ => []) "apps" [⟨.str "u", .list [.int 1], .list [.str "d"], .str "p"⟩] 1).2
    (by simp) (le_refl 1)
    (fun k mid => ⟨⟨.bool true, rfl, rfl⟩, ⟨.bool false, rfl, rfl⟩⟩)

/-- The Create step when every response is 201 with an id: one create request
    per validation id, in order, ids collected in order. -/
theorem createPhase_all201 (c : Client) (w : World) (vids : List PyVal) :
    ∀ (t : Trace) (appid : Nat → PyVal),
      (∀ (k : Nat) (v : PyVal), vids[k]? = some v →
        (w.server (t.length + k) (createRequest c v)).status_code = 201 ∧
        (json_loads (w.server (t.length + k) (createRequest c v)).content).item "id"
          = some (appid k)) →
      createPhase c w t vids =
        (.ok ((List.range vids.length).map appid), t ++ vids.map (createRequest c)) := by
  induction vids with
  | nil =>
    intro t appid _
    simp [createPhase]
  | cons vid rest ih =>
    intro t appid h
    have h0 := h 0 vid (by simp)
    simp only [Nat.add_zero] at h0
    have hrec : ∀ (k : Nat) (v : PyVal), rest[k]? = some v →
        (w.server ((t ++ [createRequest c vid]).length + k)
          (createRequest c v)).status_code = 201 ∧
        (json_loads (w.server ((t ++ [createRequest c vid]).length + k)
          (createRequest c v)).content).item "id" = some (appid (k + 1)) := by
      intro k v hv
      have hx := h (k + 1) v (by simpa using hv)
      have harith : t.length + (k + 1) = (t ++ [createRequest c vid]).length + k := by
        simp
        omega
      rw [harith] at hx
      exact hx
    rw [createPhase]
    simp only [create_eq]
    rw [if_neg (by simp [h0.1])]
    simp only [json_loads] at h0 ⊢
    rw [h0.2]
    rw [ih (t ++ [createRequest c vid]) (fun k => appid (k + 1)) hrec]
    simp [List.range_succ_eq_map, List.map_map, Function.comp, Nat.succ_eq_add_one]

/-- The Create step aborts on the first non-201 response, after issuing
    exactly the create requests up to and including the failing one. -/
theorem createPhase_abort (c : Client) (w : World) (vids : List PyVal) :
    ∀ (t : Trace) (jj : Nat),
      (∀ (k : Nat) (v : PyVal), k < jj → vids[k]? = some v →
        (w.server (t.length + k) (createRequest c v)).status_code = 201 ∧
        ∃ idv, (json_loads (w.server (t.length + k)
          (createRequest c v)).content).item "id" = some idv) →
      (∀ v : PyVal, vids[jj]? = some v →
        (w.server (t.length + jj) (createRequest c v)).status_code ≠ 201) →
      jj < vids.length →
      createPhase c w t vids =
        (.error .runtimeError, t ++ (vids.take (jj + 1)).map (createRequest c)) := by
  induction vids with
  | nil =>
    intro t jj _ _ hj
    exact absurd hj (Nat.not_lt_zero jj)
  | cons vid rest ih =>
    intro t jj hok hbad hj
    cases jj with
    | zero =>
      have hb := hbad vid (by simp)
      simp only [Nat.add_zero] at hb
      rw [createPhase]
      simp only [create_eq]
      rw [if_pos hb]
      simp
    | succ j =>
      have h0 := hok 0 vid (Nat.succ_pos j) (by simp)
      simp only [Nat.add_zero] at h0
      obtain ⟨h0s, idv, h0id⟩ := h0
      have hj' : j < rest.length := by simpa using Nat.lt_of_succ_lt_succ hj
      have harith : ∀ k : Nat,
          t.length + (k + 1) = (t ++ [createRequest c vid]).length + k := by
        intro k
        simp
        omega
      have hok' : ∀ (k : Nat) (v : PyVal), k < j → rest[k]? = some v →
          (w.server ((t ++ [createRequest c vid]).length + k)
            (createRequest c v)).status_code = 201 ∧
          ∃ idv, (json_loads (w.server ((t ++ [createRequest c vid]).length + k)
            (createRequest c v)).content).item "id" = some idv := by
        intro k v hk hv
        have hx := hok (k + 1) v (Nat.succ_lt_succ hk) (by simpa using hv)
        rw [harith k] at hx
        exact hx
      have hbad' : ∀ v : PyVal, rest[j]? = some v →
          (w.server ((t ++ [createRequest c vid]).length + j)
            (createRequest c v)).status_code ≠ 201 := by
        intro v hv
        have hx := hbad v (by simpa using hv)
        rw [harith j] at hx
        exact hx
      rw [createPhase]
      simp only [create_eq]
      rw [if_neg (by simp [h0s])]
      simp only [json_loads] at h0id ⊢
      rw [h0id]
      rw [ih (t ++ [createRequest c vid]) j hok' hbad' hj']
      simp

/-- Claim C6: once all validations are resolved, the Create step issues one
    create request per validation id, in original submission order; with
    all-201 responses the returned ids are collected in order, and a first
    non-201 response aborts the run, leaving exactly the create requests up
    to the failing one in the trace. -/
theorem claim_C6 :
    (∀ (c : Client) (w : World) (t : Trace) (vids : List PyVal) (appid : Nat → PyVal),
      (∀ (k : Nat) (v : PyVal), vids[k]? = some v →
        (w.server (t.length + k) (createRequest c v)).status_code = 201 ∧
        (json_loads (w.server (t.length + k) (createRequest c v)).content).item "id"
          = some (appid k)) →
      createPhase c w t vids =
        (.ok ((List.range vids.length).map appid), t ++ vids.map (createRequest c))) ∧
    (∀ (c : Client) (w : World) (t : Trace) (vids : List PyVal) (jj : Nat),
      (∀ (k : Nat) (v : PyVal), k < jj → vids[k]? = some v →
        (w.server (t.length + k) (createRequest c v)).status_code = 201 ∧
        ∃ idv, (json_loads (w.server (t.length + k)
          (createRequest c v)).content).item "id" = some idv) →
      (∀ v : PyVal, vids[jj]? = some v →
        (w.server (t.length + jj) (createRequest c v)).status_code ≠ 201) →
      jj < vids.length →
      createPhase c w t vids =
        (.error .runtimeError, t ++ (vids.take (jj + 1)).map (createRequest c))) :=
  ⟨fun c w t vids appid h => createPhase_all201 c w vids t appid h,
   fun c w t vids jj hok hbad hj => createPhase_abort c w vids t jj hok hbad hj⟩

/-- Claim C6 witness: a two-id batch created against an all-201 server with
    ids 100 and 101, and a one-id batch aborted by a 500. -/
theorem claim_C6_witness :
    createPhase ⟨"m", "https", 443, ""⟩
      ⟨fun k _ => ⟨201, .dict [("id", .int (100 + Int.ofNat k))]⟩⟩ []
      [.str "v1", .str "v2"] =
      (.ok [.int 100, .int 101],
       [createRequest ⟨"m", "https", 443, ""⟩ (.str "v1"),
        createRequest ⟨"m", "https", 443, ""⟩ (.str "v2")]) ∧
    createPhase ⟨"m", "https", 443, ""⟩ ⟨fun _ _ => ⟨500, .dict []⟩⟩ [] [.str "v1"] =
      (.error .runtimeError, [createRequest ⟨"m", "https", 443, ""⟩ (.str "v1")]) := by
  constructor
  · have h := claim_C6.1 ⟨"m", "https", 443, ""⟩
      ⟨fun k _ => ⟨201, .dict [("id", .int (100 + Int.ofNat k))]⟩⟩ []
      [.str "v1", .str "v2"] (fun k => .int (100 + Int.ofNat k))
      (fun k v _ => ⟨rfl, by simp [json_loads, PyVal.item]⟩)
    simpa using h
  · have h := claim_C6.2 ⟨"m", "https", 443, ""⟩ ⟨fun _ _ => ⟨500, .dict []⟩⟩ []
      [.str "v1"] 0 (fun k v hk _ => absurd hk (Nat.not_lt_zero k))
      (fun v _ => by simp) (by simp)
    simpa using h

/-- Claim C3, amended: in the Populate step, each pair gets `update`, then
    `create_screenshot`, then `add_content_ratings`, in that order, and the
    run aborts when `update`'s response status is not 202 — but the responses
    of `create_screenshot` and `add_content_ratings` are never examined, so
    their failures do not abort the run (the first conjunct assumes nothing
    about those two statuses and continues with the remaining pairs
    regardless). -/
theorem claim_C3_amended :
    (∀ (c : Client) (w : World) (fs : String → List Nat) (shot : String) (t : Trace)
      (aid : PyVal) (app : AppDescriptor) (rest : List (PyVal × AppDescriptor))
      (data : List (String × PyVal)),
      populateData aid app = .ok data →
      updateAssert data = true →
      (w.server t.length (updateRequest c aid data)).status_code = 202 →
      populatePhase c w fs shot t ((aid, app) :: rest) =
        populatePhase c w fs shot
          (t ++ [updateRequest c aid data, screenshotRequest c fs aid shot (.int 1),
                 ratingsRequest c aid (.int 0) (.int 0)]) rest) ∧
    (∀ (c : Client) (w : World) (fs : String → List Nat) (shot : String) (t : Trace)
      (aid : PyVal) (app : AppDescriptor) (rest : List (PyVal × AppDescriptor))
      (data : List (String × PyVal)),
      populateData aid app = .ok data →
      updateAssert data = true →
      (w.server t.length (updateRequest c aid data)).status_code ≠ 202 →
      populatePhase c w fs shot t ((aid, app) :: rest) =
        (.error .runtimeError, t ++ [updateRequest c aid data])) := by
  constructor
  · intro c w fs shot t aid app rest data hpd hass h202
    simp only [populatePhase, hpd, update_eq_of_assert c w t aid data hass,
      screenshot_eq, ratings_eq]
    rw [if_neg (by simp [h202])]
    have hassoc : t ++ [updateRequest c aid data] ++
        [screenshotRequest c fs aid shot (.int 1)] ++
        [ratingsRequest c aid (.int 0) (.int 0)] =
        t ++ [updateRequest c aid data, screenshotRequest c fs aid shot (.int 1),
              ratingsRequest c aid (.int 0) (.int 0)] := by
      simp
    rw [hassoc]
  · intro c w fs shot t aid app rest data hpd hass hbad
    simp only [populatePhase, hpd, update_eq_of_assert c w t aid data hass]
    rw [if_pos hbad]

/-- The descriptor used in the concrete C3 runs. -/
def appx : AppDescriptor :=
  ⟨.str "u", .list [.int 1, .int 2], .list [.str "desktop"], .str "p"⟩

/-- The data dict `main` builds for app id 1 over `appx`. -/
def dat1 : List (String × PyVal) :=
  [("name", .str "App 1"), ("summary", .str "App 1"),
   ("categories", .list [.int 1, .int 2]),
   ("support_email", .str "app-reviewers@mozilla.org"),
   ("device_types", .list [.str "desktop"]),
   ("privacy_policy", .str "p"), ("premium_type", .str "free")]

/-- The data dict `main` builds for app id 2 over `appx`. -/
def dat2 : List (String × PyVal) :=
  [("name", .str "App 2"), ("summary", .str "App 2"),
   ("categories", .list [.int 1, .int 2]),
   ("support_email", .str "app-reviewers@mozilla.org"),
   ("device_types", .list [.str "desktop"]),
   ("privacy_policy", .str "p"), ("premium_type", .str "free")]

/-- The client of the concrete C3 runs. -/
def c3 : Client := ⟨"m", "https", 443, ""⟩

/-- A server that answers every `update` (call indices 0 and 3) with 202,
    every `create_screenshot` (indices 1 and 4) with 500, and every
    `add_content_ratings` (indices 2 and 5) with 201. -/
def w3 : World :=
  ⟨fun n _ => if n % 3 = 0 then ⟨202, .dict []⟩
    else if n % 3 = 1 then ⟨500, .dict []⟩ else ⟨201, .dict []⟩⟩

/-- Claim C3 as stated is false: in this two-app Populate run the screenshot
    upload of the first app fails (status 500), yet the run does not abort —
    `add_content_ratings` is still called for app 1, all three calls are made
    for app 2, and the step returns success. -/
theorem claim_C3_counterexample :
    (w3.server 1 (screenshotRequest c3 (fun _ => []) (.int 1) "s.png" (.int 1))).status_code
      ≠ 201 ∧
    populatePhase c3 w3 (fun _ => []) "s.png" [] [(.int 1, appx), (.int 2, appx)] =
      (.ok (),
       [updateRequest c3 (.int 1) dat1,
        screenshotRequest c3 (fun _ => []) (.int 1) "s.png" (.int 1),
        ratingsRequest c3 (.int 1) (.int 0) (.int 0),
        updateRequest c3 (.int 2) dat2,
        screenshotRequest c3 (fun _ => []) (.int 2) "s.png" (.int 1),
        ratingsRequest c3 (.int 2) (.int 0) (.int 0)]) :=
  ⟨by decide, rfl⟩

/-- Claim C3 witness: one pair against `w3` runs all three calls and returns;
    one pair against an all-400 server aborts after the `update`. -/
theorem claim_C3_witness :
    populatePhase c3 w3 (fun _ => []) "s.png" [] [(.int 1, appx)] =
      (.ok (),
       [updateRequest c3 (.int 1) dat1,
        screenshotRequest c3 (fun _ => []) (.int 1) "s.png" (.int 1),
        ratingsRequest c3 (.int 1) (.int 0) (.int 0)]) ∧
    populatePhase c3 ⟨fun _ _ => ⟨400, .dict []⟩⟩ (fun _ => []) "s.png" []
      [(.int 1, appx)] =
      (.error .runtimeError, [updateRequest c3 (.int 1) dat1]) := by
  constructor
  · exact (claim_C3_amended.1 c3 w3 (fun _ => []) "s.png" [] (.int 1) appx [] dat1
      rfl (by decide) rfl).trans rfl
  · exact claim_C3_amended.2 c3 ⟨fun _ _ => ⟨400, .dict []⟩⟩ (fun _ => []) "s.png" []
      (.int 1) appx [] dat1 rfl (by decide) (by decide)

/-! ### Helper lemmas about polling a single manifest id -/

/-- `is_manifest_valid` raises `Exception(status_code)` on a non-200 poll. -/
theorem imv_non200 (c : Client) (w : World) (t : Trace) (mid : PyVal)
    (h : (w.server t.length (gmvrRequest c mid)).status_code ≠ 200) :
    (c.is_manifest_valid w t mid).1 =
      .error (.exception (w.server t.length (gmvrRequest c mid)).status_code) := by
  simp only [Client.is_manifest_valid, gmvr_eq]
  rw [if_pos h]

/-- `is_manifest_valid` returns `None` while the manifest is unprocessed. -/
theorem imv_pending (c : Client) (w : World) (t : Trace) (mid : PyVal) (p : PyVal)
    (h200 : (w.server t.length (gmvrRequest c mid)).status_code = 200)
    (hp : (json_loads (w.server t.length (gmvrRequest c mid)).content).item "processed"
      = some p)
    (hpf : p.truthy = false) :
    (c.is_manifest_valid w t mid).1 = .ok PyVal.none := by
  simp only [Client.is_manifest_valid, gmvr_eq]
  rw [if_neg (by simp [h200]), hp]
  simp [hpf]

/-- `is_manifest_valid` returns `True` once processed and valid. -/
theorem imv_valid (c : Client) (w : World) (t : Trace) (mid : PyVal) (p v : PyVal)
    (h200 : (w.server t.length (gmvrRequest c mid)).status_code = 200)
    (hp : (json_loads (w.server t.length (gmvrRequest c mid)).content).item "processed"
      = some p)
    (hpt : p.truthy = true)
    (hv : (json_loads (w.server t.length (gmvrRequest c mid)).content).item "valid"
      = some v)
    (hvt : v.truthy = true) :
    (c.is_manifest_valid w t mid).1 = .ok (PyVal.bool true) := by
  simp only [Client.is_manifest_valid, gmvr_eq]
  rw [if_neg (by simp [h200]), hp]
  simp [hpt, hv, hvt]

/-- `is_manifest_valid` returns the `validation` payload when processed but
    invalid. -/
theorem imv_invalid (c : Client) (w : World) (t : Trace) (mid : PyVal) (p v val : PyVal)
    (h200 : (w.server t.length (gmvrRequest c mid)).status_code = 200)
    (hp : (json_loads (w.server t.length (gmvrRequest c mid)).content).item "processed"
      = some p)
    (hpt : p.truthy = true)
    (hv : (json_loads (w.server t.length (gmvrRequest c mid)).content).item "valid"
      = some v)
    (hvf : v.truthy = false)
    (hval : (json_loads (w.server t.length (gmvrRequest c mid)).content).item "validation"
      = some val) :
    (c.is_manifest_valid w t mid).1 = .ok val := by
  simp only [Client.is_manifest_valid, gmvr_eq]
  rw [if_neg (by simp [h200]), hp]
  simp [hpt, hv, hvf, hval]

/-- Claim C4: for every manifest id, `is_manifest_valid` returns `True` when
    the polled body has `processed=true` and `valid=true`, `None` when it has
    `processed=false`, the body's `validation` payload when `processed=true`
    and `valid=false`, and raises an exception whenever the poll's status code
    is not 200. -/
theorem claim_C4 (c : Client) (w : World) (t : Trace) (mid : PyVal) :
    ((w.server t.length (gmvrRequest c mid)).status_code = 200 →
      (json_loads (w.server t.length (gmvrRequest c mid)).content).item "processed"
        = some (.bool true) →
      (json_loads (w.server t.length (gmvrRequest c mid)).content).item "valid"
        = some (.bool true) →
      (c.is_manifest_valid w t mid).1 = .ok (PyVal.bool true)) ∧
    ((w.server t.length (gmvrRequest c mid)).status_code = 200 →
      (json_loads (w.server t.length (gmvrRequest c mid)).content).item "processed"
        = some (.bool false) →
      (c.is_manifest_valid w t mid).1 = .ok PyVal.none) ∧
    (∀ val : PyVal, (w.server t.length (gmvrRequest c mid)).status_code = 200 →
      (json_loads (w.server t.length (gmvrRequest c mid)).content).item "processed"
        = some (.bool true) →
      (json_loads (w.server t.length (gmvrRequest c mid)).content).item "valid"
        = some (.bool false) →
      (json_loads (w.server t.length (gmvrRequest c mid)).content).item "validation"
        = some val →
      (c.is_manifest_valid w t mid).1 = .ok val) ∧
    ((w.server t.length (gmvrRequest c mid)).status_code ≠ 200 →
      (c.is_manifest_valid w t mid).1 =
        .error (.exception (w.server t.length (gmvrRequest c mid)).status_code)) := by
  refine ⟨?_, ?_, ?_, ?_⟩
  · intro h200 hp hv
    exact imv_valid c w t mid _ _ h200 hp rfl hv rfl
  · intro h200 hp
    exact imv_pending c w t mid _ h200 hp rfl
  · intro val h200 hp hv hval
    exact imv_invalid c w t mid _ _ _ h200 hp rfl hv rfl hval
  · exact imv_non200 c w t mid

/-- Claim C4 witness at a concrete input: a constant server answering 200 with
    a processed/invalid body, whose `validation` dict is returned. -/
theorem claim_C4_witness :
    (Client.is_manifest_valid ⟨"m", "https", 443, ""⟩
      ⟨fun _ _ => ⟨200, .dict [("processed", .bool true), ("valid", .bool false),
        ("validation", .dict [("errors", .list [.str "bad"])])]⟩⟩
      [] (.str "v1")).1 = .ok (.dict [("errors", .list [.str "bad"])]) :=
  (claim_C4 ⟨"m", "https", 443, ""⟩
      ⟨fun _ _ => ⟨200, .dict [("processed", .bool true), ("valid", .bool false),
        ("validation", .dict [("errors", .list [.str "bad"])])]⟩⟩
      [] (.str "v1")).2.2.1
    (.dict [("errors", .list [.str "bad"])]) rfl rfl rfl rfl

/-- Claim C5: if the server answers the first `N-1` polls of an id with
    status 200 and `processed=false` and the `N`-th with status 200,
    `processed=true`, `valid=true`, then `is_manifest_valid` returns `None` on
    each of the first `N-1` calls and `True` on the `N`-th. -/
theorem claim_C5 (c : Client) (w : World) (mid : PyVal) (N : Nat) (t : Nat → Trace)
    (_hN : 1 ≤ N)
    (hpend : ∀ k, k < N - 1 →
      (w.server (t k).length (gmvrRequest c mid)).status_code = 200 ∧
      (json_loads (w.server (t k).length (gmvrRequest c mid)).content).item "processed"
        = some (.bool false))
    (hlast :
      (w.server (t (N - 1)).length (gmvrRequest c mid)).status_code = 200 ∧
      (json_loads (w.server (t (N - 1)).length (gmvrRequest c mid)).content).item "processed"
        = some (.bool true) ∧
      (json_loads (w.server (t (N - 1)).length (gmvrRequest c mid)).content).item "valid"
        = some (.bool true)) :
    (∀ k, k < N - 1 → (c.is_manifest_valid w (t k) mid).1 = .ok PyVal.none) ∧
    (c.is_manifest_valid w (t (N - 1)) mid).1 = .ok (PyVal.bool true) := by
  constructor
  · intro k hk
    exact imv_pending c w (t k) mid _ (hpend k hk).1 (hpend k hk).2 rfl
  · exact imv_valid c w (t (N - 1)) mid _ _ hlast.1 hlast.2.1 rfl hlast.2.2 rfl

/-- Claim C5 witness: `N = 2`, a server that answers `processed=false` to the
    first poll and `processed=true, valid=true` to the second. -/
theorem claim_C5_witness :
    (Client.is_manifest_valid ⟨"m", "https", 443, ""⟩
      ⟨fun k _ => if k = 0 then ⟨200, .dict [("processed", .bool false)]⟩
        else ⟨200, .dict [("processed", .bool true), ("valid", .bool true)]⟩⟩
      [] (.str "v1")).1 = .ok PyVal.none ∧
    (Client.is_manifest_valid ⟨"m", "https", 443, ""⟩
      ⟨fun k _ => if k = 0 then ⟨200, .dict [("processed", .bool false)]⟩
        else ⟨200, .dict [("processed", .bool true), ("valid", .bool true)]⟩⟩
      [gmvrRequest ⟨"m", "https", 443, ""⟩ (.str "v1")] (.str "v1")).1
      = .ok (PyVal.bool true) := by
  have h := claim_C5 ⟨"m", "https", 443, ""⟩
    ⟨fun k _ => if k = 0 then ⟨200, .dict [("processed", .bool false)]⟩
      else ⟨200, .dict [("processed", .bool true), ("valid", .bool true)]⟩⟩
    (.str "v1") 2
    (fun k => List.replicate k (gmvrRequest ⟨"m", "https", 443, ""⟩ (.str "v1")))
    (by norm_num)
    (by
      intro k hk
      interval_cases k
      exact ⟨rfl, rfl⟩)
    ⟨rfl, rfl, rfl⟩
  exact ⟨h.1 0 (by norm_num), h.2⟩

/-- Claim C8: repeated `get_manifest_validation_result` calls with the same
    manifest id issue a `GET` of the same URL each time (the logged request is
    the same fixed `gmvrRequest`, whatever was in the trace before), and equal
    server responses give equal results.  The method reads only immutable
    client fields and assigns none, so in this embedding it is a pure function
    of the client — it cannot mutate the `Client`. -/
theorem claim_C8 (c : Client) (w : World) (t₁ t₂ : Trace) (mid : PyVal)
    (h : w.server t₁.length (gmvrRequest c mid) = w.server t₂.length (gmvrRequest c mid)) :
    (c.get_manifest_validation_result w t₁ mid).2 = t₁ ++ [gmvrRequest c mid] ∧
    (c.get_manifest_validation_result w t₂ mid).2 = t₂ ++ [gmvrRequest c mid] ∧
    (gmvrRequest c mid).method = "GET" ∧
    (c.get_manifest_validation_result w t₁ mid).1 =
      (c.get_manifest_validation_result w t₂ mid).1 :=
  ⟨rfl, rfl, rfl, h⟩

/-- Claim C8 witness: two calls, before and after one logged request, against
    a constant server. -/
theorem claim_C8_witness :
    (Client.get_manifest_validation_result ⟨"m", "https", 443, ""⟩
        ⟨fun _ _ => ⟨200, .dict [("processed", .bool true), ("valid", .bool true)]⟩⟩
        [] (.str "v1")).1 =
      (Client.get_manifest_validation_result ⟨"m", "https", 443, ""⟩
        ⟨fun _ _ => ⟨200, .dict [("processed", .bool true), ("valid", .bool true)]⟩⟩
        [gmvrRequest ⟨"m", "https", 443, ""⟩ (.str "v1")] (.str "v1")).1 :=
  (claim_C8 ⟨"m", "https", 443, ""⟩
    ⟨fun _ _ => ⟨200, .dict [("processed", .bool true), ("valid", .bool true)]⟩⟩
    [] [gmvrRequest ⟨"m", "https", 443, ""⟩ (.str "v1")] (.str "v1") rfl).2.2.2

/-- Claim C10: `app_state` with `status=None`, `disabled_by_user=False` passes
    the precondition assertion (`disabled_by_user` is not `None`) but sends
    the `PATCH` with an empty payload: the falsy `False` is dropped by the
    truthiness filter and never transmitted. -/
theorem claim_C10 (c : Client) (w : World) (t : Trace) (app_id : PyVal) :
    c.app_state w t app_id PyVal.none (PyVal.bool false) =
      (.ok (w.server t.length ⟨"PATCH", pyMod (c.url "enable") app_id, some (.dict [])⟩),
       t ++ [⟨"PATCH", pyMod (c.url "enable") app_id, some (.dict [])⟩]) := by
  rw [Client.app_state, if_pos (Or.inr (by intro h; cases h))]
  rfl

/-- A data dict with every required field present and truthy except `summary`,
    which is present but empty (falsy). -/
def summaryBugData : List (String × PyVal) :=
  [("name", .str "A"), ("summary", .str ""), ("categories", .list [.int 1, .int 2]),
   ("support_email", .str "s@example.org"), ("device_types", .list [.str "desktop"]),
   ("premium_type", .str "free"), ("privacy_policy", .str "p")]

/-- Claim C2 is wrong about the code: the assertion of `Client.update` checks
    `'summary' in data` but, unlike for every other required field, not the
    truthiness of `data['summary']`.  On a dict whose `summary` is the falsy
    `''`, the assertion passes and the `PUT` is delegated to `Connection.fetch`,
    where the claim (and the spec, and the method's own docstring, which lists
    `summary` as required like `name`) demands an assertion failure. -/
theorem claim_C2_bug (c : Client) (w : World) (t : Trace) (app_id : PyVal) :
    summaryBugData.lookup "summary" = some (.str "") ∧
    (PyVal.str "").truthy = false ∧
    updateAssert summaryBugData = true ∧
    c.update w t app_id summaryBugData =
      (.ok (w.server t.length (updateRequest c app_id summaryBugData)),
       t ++ [updateRequest c app_id summaryBugData]) := by
  refine ⟨rfl, rfl, by decide, ?_⟩
  rw [Client.update, if_pos (by decide)]
  rfl

/-- Claim C7: `create_screenshot` consults the server with, and logs, exactly
    one `POST` whose payload carries the position, the MIME type guessed from
    the filename's extension — `image/jpeg` when the guess fails — and the
    base64-encoded file content; a `.png` name (concretely, the orchestrator's
    `screenshot.png`) yields `image/png`, and an unrecognized extension
    (concretely `.xyz`) falls back to `image/jpeg`. -/
theorem claim_C7 (c : Client) (w : World) (fs : String → List Nat) (t : Trace)
    (app_id : PyVal) (filename : String) (position : PyVal) :
    (c.create_screenshot w fs t app_id filename position =
      (w.server t.length (screenshotRequest c fs app_id filename position),
       t ++ [screenshotRequest c fs app_id filename position])) ∧
    (screenshotRequest c fs app_id filename position).body =
      some (.dict [("position", position),
        ("file", .dict [("type", .str ((guess_type filename).getD "image/jpeg")),
                        ("data", .str (b64encode (fs filename)))])]) ∧
    (guess_type filename = Option.none →
      (screenshotRequest c fs app_id filename position).body =
        some (.dict [("position", position),
          ("file", .dict [("type", .str "image/jpeg"),
                          ("data", .str (b64encode (fs filename)))])])) ∧
    guess_type "screenshot.png" = some "image/png" ∧
    guess_type "file.xyz" = Option.none := by
  refine ⟨rfl, rfl, ?_, by decide, by decide⟩
  intro h
  rw [screenshotRequest, h]
  rfl

/-- Claim C7 witness: a concrete screenshot upload of a one-byte `.xyz` file;
    the hypothesis of the fallback conjunct is discharged at `file.xyz`. -/
theorem claim_C7_witness :
    (screenshotRequest ⟨"m", "https", 443, ""⟩ (fun _ => [77]) (.int 5) "file.xyz"
      (.int 1)).body =
      some (.dict [("position", .int 1),
        ("file", .dict [("type", .str "image/jpeg"),
                        ("data", .str (b64encode ((fun _ => [77] : String → List Nat)
                          "file.xyz")))])]) :=
  (claim_C7 ⟨"m", "https", 443, ""⟩ ⟨fun _ _ => ⟨201, .dict []⟩⟩ (fun _ => [77]) []
    (.int 5) "file.xyz" (.int 1)).2.2.1 (by decide)

/-- Claim C9, amended: the URL of every operation key is
    `protocol://domain:port` followed by the prefix, `/api/v1` and the key's
    fixed resource-path template — provided the protocol is nonempty and the
    stored prefix is empty or starts with `/` (otherwise `urlunparse` inserts
    a `/` of its own before the prefix, and an empty protocol drops the `:`). -/
theorem claim_C9_amended (c : Client) (hproto : c.protocol ≠ "")
    (hpre : c.pre = "" ∨ c.pre.data.head? = some '/') :
    c.url "validate" = c.protocol ++ "://" ++ c.domain ++ ":" ++ toString c.port ++
      c.pre ++ "/api/v1" ++ "/apps/validation/" ∧
    c.url "validation_result" = c.protocol ++ "://" ++ c.domain ++ ":" ++ toString c.port ++
      c.pre ++ "/api/v1" ++ "/apps/validation/%s/" ∧
    c.url "create" = c.protocol ++ "://" ++ c.domain ++ ":" ++ toString c.port ++
      c.pre ++ "/api/v1" ++ "/apps/app/" ∧
    c.url "app" = c.protocol ++ "://" ++ c.domain ++ ":" ++ toString c.port ++
      c.pre ++ "/api/v1" ++ "/apps/app/%s/" ∧
    c.url "create_screenshot" = c.protocol ++ "://" ++ c.domain ++ ":" ++ toString c.port ++
      c.pre ++ "/api/v1" ++ "/apps/app/%s/preview/" ∧
    c.url "screenshot" = c.protocol ++ "://" ++ c.domain ++ ":" ++ toString c.port ++
      c.pre ++ "/api/v1" ++ "/apps/preview/%s/" ∧
    c.url "categories" = c.protocol ++ "://" ++ c.domain ++ ":" ++ toString c.port ++
      c.pre ++ "/api/v1" ++ "/apps/category/" ∧
    c.url "content_ratings" = c.protocol ++ "://" ++ c.domain ++ ":" ++ toString c.port ++
      c.pre ++ "/api/v1" ++ "/apps/app/%s/content_ratings/" ∧
    c.url "enable" = c.protocol ++ "://" ++ c.domain ++ ":" ++ toString c.port ++
      c.pre ++ "/api/v1" ++ "/apps/status/%s/" :=
  ⟨url_shape c hproto hpre "validate", url_shape c hproto hpre "validation_result",
   url_shape c hproto hpre "create", url_shape c hproto hpre "app",
   url_shape c hproto hpre "create_screenshot", url_shape c hproto hpre "screenshot",
   url_shape c hproto hpre "categories", url_shape c hproto hpre "content_ratings",
   url_shape c hproto hpre "enable"⟩

/-- Claim C9 as stated is false: for a client whose stored prefix does not
    start with `/` (here `"x"`), `urlunparse` inserts a `/` before the prefix,
    so the URL is not `protocol://domain:port` + prefix + `/api/v1` + template. -/
theorem claim_C9_counterexample :
    Client.url ⟨"d", "https", 443, "x"⟩ "validate" ≠
      "https" ++ "://" ++ "d" ++ ":" ++ toString (443 : Nat) ++ "x" ++ "/api/v1" ++
        "/apps/validation/" ∧
    Client.url ⟨"d", "https", 443, "x"⟩ "validate" =
      "https://d:443/x/api/v1/apps/validation/" := by
  constructor
  · decide
  · decide

/-- Claim C9 witness: the amended shape at a concrete client with prefix
    `/mp`. -/
theorem claim_C9_witness :
    Client.url ⟨"m.dev", "https", 8443, "/mp"⟩ "validate" =
      "https://m.dev:8443/mp/api/v1/apps/validation/" ∧
    Client.url ⟨"m.dev", "https", 8443, "/mp"⟩ "enable" =
      "https://m.dev:8443/mp/api/v1/apps/status/%s/" := by
  have h := claim_C9_amended ⟨"m.dev", "https", 8443, "/mp"⟩ (by decide) (Or.inr rfl)
  exact ⟨by rw [h.1]; decide, by rw [h.2.2.2.2.2.2.2.2]; decide⟩

end Marketplace
